import Mathlib

/-!
Verification of the garden-yolo camera monitor (src/config.py, src/monitor.py).

Shallow embedding conventions:
* A decoded OpenCV image (`cv2.Mat`) is a `Frame`: a list of rows of BGR pixels.
* Wall-clock time is modelled in whole seconds as an integer; `datetime.min`
  (the initial value of `last_discord_send`) is the integer `datetimeMin`.
* Network/IO outcomes that the Python code observes (capture success, model
  result, JPEG-encode success, Discord-post success) are per-cycle oracle
  inputs in `CycleInput`; the configuration surface read by `monitor.py` is a
  `Config`.
* The observable side effects of one iteration of `CameraMonitor.run` are
  collected in a `CycleResult`: the frame written by `save_image`, the frame
  successfully posted by `send_discord_image`, the Kuma heartbeat pushed by
  `push_kuma` (an `up`/`down` status; `none` when KUMA_URL is unconfigured),
  and whether an uncaught exception escaped the iteration (`crashed`).
* `cv2.rectangle` and `cv2.putText` mutate their image argument in place and
  `process_image` returns that same object; the pure embedding returns the
  buffer contents as they stand after the call, so "the input frame was
  mutated" is rendered as "the returned frame differs from the argument".
  Glyph rasterization of `cv2.putText` is abstracted to marking the text
  anchor pixel `(x1, y1 - 10)`; the rectangle border of `cv2.rectangle`
  (thickness 2) is drawn concretely.
-/

namespace GardenYolo

/-- A BGR pixel value, as stored in a decoded OpenCV matrix. -/
abbrev Pixel := ℕ × ℕ × ℕ

/-- Default pixel used only to total out-of-range list indexing. -/
def pxZero : Pixel := (0, 0, 0)

/-- An in-memory decoded image: a list of rows of pixels. -/
structure Frame where
  data : List (List Pixel)
deriving DecidableEq

/-- Number of pixel rows of a frame. -/
def Frame.height (f : Frame) : ℕ := f.data.length

/-- Number of pixel columns of a frame (length of its first row). -/
def Frame.width (f : Frame) : ℕ := (f.data.headD []).length

/-- Embedding of `cv2.rotate(image, cv2.ROTATE_90_CLOCKWISE)`:
row `i` of the output is the reversed `i`-th column of the input. -/
def rotate90CW (f : Frame) : Frame :=
  ⟨(List.range f.width).map (fun i => (f.data.map (fun r => r.getD i pxZero)).reverse)⟩

/-- Embedding of `cv2.rotate(image, cv2.ROTATE_180)`. -/
def rotate180 (f : Frame) : Frame :=
  ⟨(f.data.reverse).map List.reverse⟩

/-- Embedding of `cv2.rotate(image, cv2.ROTATE_90_COUNTERCLOCKWISE)`:
row `i` of the output is the `(width - 1 - i)`-th column of the input. -/
def rotate90CCW (f : Frame) : Frame :=
  ⟨(List.range f.width).map (fun i => f.data.map (fun r => r.getD (f.width - 1 - i) pxZero))⟩

/-- The rotation branch of `CameraMonitor.capture_image` (monitor.py lines
56-61): rotate for the configured values 90, 180, 270; any other
`CAMERA_ROTATION` value falls through and leaves the decoded frame as is. -/
def applyRotation (rot : ℤ) (f : Frame) : Frame :=
  if rot = 90 then rotate90CW f
  else if rot = 180 then rotate180 f
  else if rot = 270 then rotate90CCW f
  else f

/-- The configuration surface of monitor.py (config.py): only the fields the
monitored claims depend on. `kumaConfigured` / `discordConfigured` model
whether `KUMA_URL` / `DISCORD_WEBHOOK_URL` are set. `failureThreshold` is
config.py's `FAILURE_THRESHOLD`. -/
structure Config where
  cameraRotation : ℤ
  failureThreshold : ℤ
  discordIntervalMinutes : ℤ
  kumaConfigured : Bool
  discordConfigured : Bool

/-- Embedding of `CameraMonitor.capture_image`: the network fetch and
`cv2.imdecode` either fail (any exception is caught inside and `None` is
returned) or produce a raw decoded frame, to which the configured rotation is
applied. -/
def capture_image (cfg : Config) (raw : Option Frame) : Option Frame :=
  raw.map (applyRotation cfg.cameraRotation)

/-- One detection row as read by `process_image` from the model output:
`class_id = int(box.cls[0])`, `confidence = float(box.conf[0])`,
`x1, y1, x2, y2 = map(int, box.xyxy[0])`. Person class is `cls = 0`. -/
structure Box where
  cls : ℤ
  conf : ℚ
  x1 : ℤ
  y1 : ℤ
  x2 : ℤ
  y2 : ℤ
deriving DecidableEq

/-- The BGR color `(10, 100, 255)` used for all overlays in `process_image`. -/
def overlayColor : Pixel := (10, 100, 255)

/-- Whether pixel `(x, y)` lies on the thickness-2 border of the rectangle
`(x1, y1)-(x2, y2)`, as drawn by `cv2.rectangle`. -/
def onRectBorder (x1 y1 x2 y2 x y : ℤ) : Bool :=
  (decide (x1 ≤ x) && decide (x ≤ x2) && decide (y1 ≤ y) && decide (y ≤ y2)) &&
    (decide (x ≤ x1 + 1) || decide (x2 - 1 ≤ x) || decide (y ≤ y1 + 1) || decide (y2 - 1 ≤ y))

/-- Model of `cv2.rectangle(image, (x1, y1), (x2, y2), color, 2)`: paint the
rectangle border onto the pixel grid (pixels outside the grid are clipped). -/
def drawRect (f : Frame) (x1 y1 x2 y2 : ℤ) : Frame :=
  ⟨f.data.mapIdx (fun y row => row.mapIdx (fun x p =>
      if onRectBorder x1 y1 x2 y2 (Int.ofNat x) (Int.ofNat y) then overlayColor else p))⟩

/-- Model of `cv2.putText(image, label, (x, y), ...)`: glyph rasterization is
abstracted to painting the text anchor pixel (clipped when offscreen, as
OpenCV clips text that falls outside the image). -/
def drawLabel (f : Frame) (x y : ℤ) : Frame :=
  ⟨f.data.mapIdx (fun py row => row.mapIdx (fun px p =>
      if Int.ofNat px = x && Int.ofNat py = y then overlayColor else p))⟩

/-- The per-box body of the loop in `process_image` (monitor.py lines
101-111): for a person-class box (`class_id == 0`) draw the bounding
rectangle and the confidence label at `(x1, y1 - 10)`; other classes leave
the frame untouched. -/
def annotateBox (f : Frame) (b : Box) : Frame :=
  if b.cls = 0 then drawLabel (drawRect f b.x1 b.y1 b.x2 b.y2) b.x1 (b.y1 - 10) else f

/-- Whether a box is a person detection (`class_id == 0`). -/
def isPerson (b : Box) : Bool := b.cls == 0

/-- The pixel of a frame at column `x`, row `y` (the default pixel when the
position lies outside the grid). -/
def pixelAt (f : Frame) (x y : ℕ) : Pixel := (f.data.getD y []).getD x pxZero

/-- Whether the overlay drawn by `process_image` for box `b` paints grid
position `(x, y)`: the box is a person detection and the position lies on
its rectangle border or at its label anchor `(x1, y1 - 10)`. -/
def overlayCovers (b : Box) (x y : ℕ) : Bool :=
  isPerson b &&
    (onRectBorder b.x1 b.y1 b.x2 b.y2 (Int.ofNat x) (Int.ofNat y)
      || (Int.ofNat x = b.x1 && Int.ofNat y = b.y1 - 10))

/-- Embedding of `CameraMonitor.process_image`. `self.model(image)` is an
external call that either raises (`Except.error`, uncaught: there is no
try/except in `process_image`) or returns the flattened list of boxes of all
results. On success the function draws overlays for every person box in
order and reports whether any person was found. The Python code mutates
`image` in place and returns the same object; the returned frame is the
buffer contents after the call. -/
def process_image (f : Frame) (modelResult : Except Unit (List Box)) :
    Except Unit (Frame × Bool) :=
  match modelResult with
  | .error e => .error e
  | .ok boxes => .ok (boxes.foldl annotateBox f, boxes.any isPerson)

/-- Outcome of `CameraMonitor.send_discord_image`: `some f` when the frame
`f` was successfully posted to the webhook; `none` when the webhook is
unconfigured (early return with a warning), when `cv2.imencode` fails (early
return), or when the POST raises (caught and logged inside). -/
def send_discord_image (cfg : Config) (f : Frame) (encodeOk sendOk : Bool) : Option Frame :=
  if !cfg.discordConfigured then none
  else if !encodeOk then none
  else if sendOk then some f else none

/-- Heartbeat status token sent to Kuma: the strings `up` / `down`. -/
inductive Status where
  | up
  | down
deriving DecidableEq

/-- Outcome of `CameraMonitor.push_kuma`: the status pushed to the Kuma
endpoint, or `none` when `KUMA_URL` is unconfigured (silent early return).
Delivery failure of the GET is caught inside and does not change what was
emitted. -/
def push_kuma (cfg : Config) (status : Status) : Option Status :=
  if cfg.kumaConfigured then some status else none

/-- Embedding of `datetime.datetime.min`, the initial `last_discord_send`:
the origin of the integer-second timeline (realistic `datetime.now()` values
are astronomically larger). -/
def datetimeMin : ℤ := 0

/-- The oracle inputs consumed by one iteration of `CameraMonitor.run`:
`now` is the value of `datetime.datetime.now()` sampled at the top of the
loop body; `rawCapture` is the decoded frame the network fetch produced (or
`none` when fetch/decode failed); `model` is the outcome of `self.model(image)`;
`encodeOk` and `sendOk` are the outcomes of `cv2.imencode` and of the webhook
POST inside `send_discord_image`. -/
structure CycleInput where
  now : ℤ
  rawCapture : Option Frame
  model : Except Unit (List Box)
  encodeOk : Bool
  sendOk : Bool

/-- The observable effects and resulting state of one iteration of
`CameraMonitor.run`: `state` is the value of `self.last_discord_send` after
the iteration, `startedAt` the `now` sampled at its top, `saved` the frame
written by `save_image`, `sent` the frame successfully posted to Discord,
`heartbeat` the Kuma push, and `crashed` whether an uncaught exception
escaped the iteration (terminating the loop). -/
structure CycleResult where
  state : ℤ
  startedAt : ℤ
  saved : Option Frame
  sent : Option Frame
  heartbeat : Option Status
  crashed : Bool
deriving DecidableEq

/-- One iteration of the `while True` body of `CameraMonitor.run`
(monitor.py lines 147-165), faithful to the source order:
sample `now`; capture; on failure push a `down` heartbeat and finish the
cycle; on success `save_image(image)` first, then `process_image` (whose
model invocation may raise — uncaught, so the iteration crashes after the
save and before any heartbeat); then, if a person was found and
`(now - last_discord_send).total_seconds() >= DISCORD_INTERVAL_MINUTES * 60`,
call `send_discord_image` and unconditionally set `last_discord_send = now`;
finally push an `up` heartbeat. -/
def runCycle (cfg : Config) (st : ℤ) (i : CycleInput) : CycleResult :=
  match capture_image cfg i.rawCapture with
  | none =>
      { state := st, startedAt := i.now, saved := none, sent := none,
        heartbeat := push_kuma cfg Status.down, crashed := false }
  | some image =>
      match process_image image i.model with
      | .error _ =>
          { state := st, startedAt := i.now, saved := some image, sent := none,
            heartbeat := none, crashed := true }
      | .ok (processed, found) =>
          if found && decide (cfg.discordIntervalMinutes * 60 ≤ i.now - st) then
            { state := i.now, startedAt := i.now, saved := some image,
              sent := send_discord_image cfg processed i.encodeOk i.sendOk,
              heartbeat := push_kuma cfg Status.up, crashed := false }
          else
            { state := st, startedAt := i.now, saved := some image, sent := none,
              heartbeat := push_kuma cfg Status.up, crashed := false }

/-- The loop of `CameraMonitor.run`, driven by a finite prefix of per-cycle
oracle inputs: iterations run in order, threading `last_discord_send`; an
iteration whose model invocation raises ends the loop (the exception
propagates out of `run`). -/
def run (cfg : Config) (st : ℤ) : List CycleInput → List CycleResult
  | [] => []
  | i :: rest =>
      if (runCycle cfg st i).crashed then [runCycle cfg st i]
      else runCycle cfg st i :: run cfg (runCycle cfg st i).state rest

/-- The cycle-start timestamps of the iterations that successfully posted a
Discord notification. -/
def sentTimes (rs : List CycleResult) : List ℤ :=
  (rs.filter (fun r => r.sent.isSome)).map CycleResult.startedAt

/-- A 4-by-4 all-black test frame. -/
def frame4 : Frame := ⟨List.replicate 4 (List.replicate 4 pxZero)⟩

/-- A 2-row, 3-column test frame with distinct pixels. -/
def frame23 : Frame :=
  ⟨[[(1, 0, 0), (2, 0, 0), (3, 0, 0)], [(4, 0, 0), (5, 0, 0), (6, 0, 0)]]⟩

/-- A person detection (class 0) at confidence 0.9 with box (0,1)-(2,3). -/
def personBox : Box := { cls := 0, conf := 9 / 10, x1 := 0, y1 := 1, x2 := 2, y2 := 3 }

/-- A non-person detection (class 16, a dog in the COCO class list). -/
def dogBox : Box := { cls := 16, conf := 8 / 10, x1 := 0, y1 := 0, x2 := 1, y2 := 1 }

/-- Configuration matching config.py defaults with both endpoints set:
rotation 0, FAILURE_THRESHOLD 3, DISCORD_INTERVAL_MINUTES 20. -/
def cfgStd : Config :=
  { cameraRotation := 0, failureThreshold := 3, discordIntervalMinutes := 20,
    kumaConfigured := true, discordConfigured := true }

/-- A cycle whose capture fails. -/
def inFail : CycleInput :=
  { now := 2000, rawCapture := none, model := Except.ok [], encodeOk := true, sendOk := true }

/-- A cycle with a successful capture, one person detection, and a working
Discord channel. -/
def inGood : CycleInput :=
  { now := 2000, rawCapture := some frame4, model := Except.ok [personBox],
    encodeOk := true, sendOk := true }

/-- Like `inGood` but the Discord POST fails. -/
def inSendFail : CycleInput := { inGood with sendOk := false }

/-- Like `inGood` but the model invocation raises. -/
def inModelErr : CycleInput := { inGood with model := Except.error () }

/-- Like `inGood` but 600 seconds later (within the 20-minute window). -/
def inLater : CycleInput := { inGood with now := 2600 }

/-- The annotated version of `frame4` after its person detection is drawn. -/
def annotatedFrame4 : Frame := List.foldl annotateBox frame4 [personBox]

/-- Every branch of an iteration records the `now` sampled at its top. -/
theorem runCycle_startedAt (cfg : Config) (st : ℤ) (i : CycleInput) :
    (runCycle cfg st i).startedAt = i.now := by
  cases hc : capture_image cfg i.rawCapture with
  | none => simp [runCycle, hc]
  | some img =>
    cases hm : process_image img i.model with
    | error e => simp [runCycle, hc, hm]
    | ok pr =>
      obtain ⟨processed, found⟩ := pr
      by_cases hd : (found && decide (cfg.discordIntervalMinutes * 60 ≤ i.now - st)) = true
      · simp only [runCycle, hc, hm, hd, if_true]
      · simp [runCycle, hc, hm, hd]

/-- After an iteration, `last_discord_send` is either unchanged or set to
the iteration's start time, the latter only when the throttle gate
`now - last_discord_send ≥ DISCORD_INTERVAL_MINUTES * 60` passed. -/
theorem runCycle_state_cases (cfg : Config) (st : ℤ) (i : CycleInput) :
    (runCycle cfg st i).state = st ∨
      ((runCycle cfg st i).state = i.now ∧
        st + cfg.discordIntervalMinutes * 60 ≤ i.now) := by
  cases hc : capture_image cfg i.rawCapture with
  | none => left; simp [runCycle, hc]
  | some img =>
    cases hm : process_image img i.model with
    | error e => left; simp [runCycle, hc, hm]
    | ok pr =>
      obtain ⟨processed, found⟩ := pr
      by_cases hd : (found && decide (cfg.discordIntervalMinutes * 60 ≤ i.now - st)) = true
      · right
        have hgate : cfg.discordIntervalMinutes * 60 ≤ i.now - st :=
          of_decide_eq_true (Bool.and_elim_right hd)
        constructor
        · simp only [runCycle, hc, hm, hd, if_true]
        · omega
      · left; simp [runCycle, hc, hm, hd]

/-- A successful Discord post can only happen in the branch that passed the
throttle gate; there `last_discord_send` is set to the cycle-start time. -/
theorem runCycle_sent_isSome (cfg : Config) (st : ℤ) (i : CycleInput)
    (h : (runCycle cfg st i).sent.isSome = true) :
    (runCycle cfg st i).state = i.now ∧
      st + cfg.discordIntervalMinutes * 60 ≤ i.now := by
  cases hc : capture_image cfg i.rawCapture with
  | none => simp [runCycle, hc] at h
  | some img =>
    cases hm : process_image img i.model with
    | error e => simp [runCycle, hc, hm] at h
    | ok pr =>
      obtain ⟨processed, found⟩ := pr
      by_cases hd : (found && decide (cfg.discordIntervalMinutes * 60 ≤ i.now - st)) = true
      · have hgate : cfg.discordIntervalMinutes * 60 ≤ i.now - st :=
          of_decide_eq_true (Bool.and_elim_right hd)
        constructor
        · simp only [runCycle, hc, hm, hd, if_true]
        · omega
      · simp [runCycle, hc, hm, hd] at h

/-- Unfolding `sentTimes` over a cons cell. -/
theorem sentTimes_cons (r : CycleResult) (rs : List CycleResult) :
    sentTimes (r :: rs)
      = if r.sent.isSome then r.startedAt :: sentTimes rs else sentTimes rs := by
  by_cases h : r.sent.isSome = true <;> simp [sentTimes, List.filter_cons, h]

/-- Every successful Discord post in a run is timestamped at least one full
throttle window after the `last_discord_send` value the run started from. -/
theorem run_sent_lb (cfg : Config) (hW : 0 ≤ cfg.discordIntervalMinutes) :
    ∀ (inps : List CycleInput) (st t : ℤ), t ∈ sentTimes (run cfg st inps) →
      st + cfg.discordIntervalMinutes * 60 ≤ t := by
  intro inps
  induction inps with
  | nil => intro st t ht; simp [run, sentTimes] at ht
  | cons i rest ih =>
    intro st t ht
    simp only [run] at ht
    have hhead : t = (runCycle cfg st i).startedAt →
        (runCycle cfg st i).sent.isSome = true →
        st + cfg.discordIntervalMinutes * 60 ≤ t := by
      intro he hs
      obtain ⟨-, hgate⟩ := runCycle_sent_isSome cfg st i hs
      rw [he, runCycle_startedAt]
      exact hgate
    split at ht
    · rw [sentTimes_cons] at ht
      split at ht
      · rcases List.mem_cons.mp ht with he | he
        · exact hhead he (by assumption)
        · simp [sentTimes] at he
      · simp [sentTimes] at ht
    · rw [sentTimes_cons] at ht
      have htail : t ∈ sentTimes (run cfg (runCycle cfg st i).state rest) →
          st + cfg.discordIntervalMinutes * 60 ≤ t := by
        intro hmem
        have hlb := ih (runCycle cfg st i).state t hmem
        rcases runCycle_state_cases cfg st i with hs | ⟨hs, hgate⟩
        · omega
        · omega
      split at ht
      · rcases List.mem_cons.mp ht with he | he
        · exact hhead he (by assumption)
        · exact htail he
      · exact htail ht

/-- The cycle-start timestamps of successful Discord posts in a run are
pairwise separated by at least the throttle window. -/
theorem run_sent_pairwise (cfg : Config) (hW : 0 ≤ cfg.discordIntervalMinutes) :
    ∀ (inps : List CycleInput) (st : ℤ),
      List.Pairwise (fun a b => a + cfg.discordIntervalMinutes * 60 ≤ b)
        (sentTimes (run cfg st inps)) := by
  intro inps
  induction inps with
  | nil => intro st; simp [run, sentTimes]
  | cons i rest ih =>
    intro st
    simp only [run]
    split
    · rw [sentTimes_cons]
      split <;> simp [sentTimes]
    · rw [sentTimes_cons]
      split
      · refine List.pairwise_cons.mpr ⟨?_, ih (runCycle cfg st i).state⟩
        intro t ht
        obtain ⟨hstate, -⟩ := runCycle_sent_isSome cfg st i (by assumption)
        have hlb := run_sent_lb cfg hW rest (runCycle cfg st i).state t ht
        rw [runCycle_startedAt]
        omega
      · exact ih (runCycle cfg st i).state

/-- Every `last_discord_send` value observed after some iteration of a run is
either the initial value or the cycle-start `now` of one of the inputs. -/
theorem run_state_mem (cfg : Config) :
    ∀ (inps : List CycleInput) (st : ℤ) (r : CycleResult), r ∈ run cfg st inps →
      r.state = st ∨ r.state ∈ inps.map CycleInput.now := by
  intro inps
  induction inps with
  | nil => intro st r hr; simp [run] at hr
  | cons i rest ih =>
    intro st r hr
    simp only [run] at hr
    have hhead : r = runCycle cfg st i → r.state = st ∨ r.state ∈ (i :: rest).map CycleInput.now := by
      intro he
      rcases runCycle_state_cases cfg st i with hs | ⟨hs, -⟩
      · left; rw [he]; exact hs
      · right; rw [he, hs]; simp
    split at hr
    · rcases List.mem_singleton.mp hr with he
      exact hhead he
    · rcases List.mem_cons.mp hr with he | he
      · exact hhead he
      · rcases ih (runCycle cfg st i).state r he with hs | hs
        · rcases runCycle_state_cases cfg st i with hs2 | ⟨hs2, -⟩
          · left; omega
          · right; rw [hs, hs2]; simp
        · right; simp only [List.map_cons, List.mem_cons]; right; exact hs

/-- Claim C1. The claim says a `down` heartbeat is emitted exactly on the
cycles where the count of consecutive capture failures reaches
FAILURE_THRESHOLD, never before, with the counter reset alongside. The code
keeps no failure counter and pushes `down` on every failed cycle: with the
default `FAILURE_THRESHOLD = 3`, already the first and second consecutive
failures each push a `down` heartbeat. -/
theorem c1_down_pushed_on_every_failure :
    (run cfgStd datetimeMin [inFail, inFail]).map CycleResult.heartbeat
      = [some Status.down, some Status.down] := by decide

/-- Claim C2, counterexample. A qualifying person detection passes the
throttle, the Discord POST fails (`sendOk = false`, so nothing is sent), yet
`last_discord_send` is advanced from `datetimeMin` to the cycle's start time
2000: `run` sets `self.last_discord_send = now` unconditionally after calling
`send_discord_image`, which swallows its own errors. -/
theorem c2_counterexample_record_on_failed_send :
    (runCycle cfgStd datetimeMin inSendFail).sent = none ∧
    (runCycle cfgStd datetimeMin inSendFail).state = 2000 ∧
    datetimeMin ≠ 2000 := by decide

/-- Claim C2, amended. Whenever a qualifying person detection passes the
throttle gate, `last_discord_send` is set to the cycle-start time regardless
of whether the outbound send succeeds, fails, or is skipped because the
webhook is unconfigured; a failed send therefore waits out a full window
rather than retrying promptly. -/
theorem c2_amended_record_regardless_of_send (cfg : Config) (st : ℤ)
    (i : CycleInput) (img : Frame) (boxes : List Box)
    (hc : capture_image cfg i.rawCapture = some img)
    (hm : i.model = Except.ok boxes)
    (hf : boxes.any isPerson = true)
    (hgate : cfg.discordIntervalMinutes * 60 ≤ i.now - st) :
    (runCycle cfg st i).state = i.now := by
  have hpr : process_image img i.model
      = Except.ok (boxes.foldl annotateBox img, boxes.any isPerson) := by
    simp [process_image, hm]
  have hd : (boxes.any isPerson
      && decide (cfg.discordIntervalMinutes * 60 ≤ i.now - st)) = true := by
    rw [hf]
    simp [hgate]
  simp [runCycle, hc, hpr, hd]

/-- Witness for the amended claim C2 at a concrete failed-send cycle. -/
theorem c2_amended_witness :
    (runCycle cfgStd datetimeMin inSendFail).state = inSendFail.now :=
  c2_amended_record_regardless_of_send cfgStd datetimeMin inSendFail frame4
    [personBox] (by decide) rfl (by decide) (by decide)

/-- Claim C3, counterexample. The throttle window is not anchored to the
last successful send: after a cycle whose send failed, no notification has
ever been successfully sent (`sentTimes = []`), yet a qualifying person
detection 600 s later — with a fully working send channel — is blocked
(nothing is sent in either cycle), because the window was anchored to the
failed attempt. -/
theorem c3_counterexample_anchor_not_successful_send :
    sentTimes (run cfgStd datetimeMin [inSendFail, inLater]) = [] ∧
    inLater.sendOk = true ∧
    ((inLater.model.toOption.getD []).any isPerson) = true ∧
    (run cfgStd datetimeMin [inSendFail, inLater]).map CycleResult.sent
      = [none, none] := by decide

/-- Claim C3, amended. No two successfully sent notifications have
cycle-start timestamps less than DISCORD_INTERVAL_MINUTES apart (for a
nonnegative configured interval), but the window is anchored to the
cycle-start time of the last throttle-passing attempt — successful or not —
rather than to the last successful send. -/
theorem c3_amended_sends_pairwise_separated (cfg : Config) (st : ℤ)
    (inps : List CycleInput) (hW : 0 ≤ cfg.discordIntervalMinutes) :
    List.Pairwise (fun a b => a + cfg.discordIntervalMinutes * 60 ≤ b)
      (sentTimes (run cfg st inps)) :=
  run_sent_pairwise cfg hW inps st

/-- Witness for the amended claim C3 on a concrete two-cycle run. -/
theorem c3_amended_witness :
    List.Pairwise (fun a b => a + cfgStd.discordIntervalMinutes * 60 ≤ b)
      (sentTimes (run cfgStd datetimeMin [inGood, inLater])) :=
  c3_amended_sends_pairwise_separated cfgStd datetimeMin [inGood, inLater]
    (by decide)

/-- Claim C4, counterexample. A failure of the detection-model invocation is
not caught: `process_image` calls `self.model(image)` outside any try/except
and `run` has none either, so the cycle crashes and the loop processes no
further input. -/
theorem c4_counterexample_model_error_stops_loop :
    (runCycle cfgStd datetimeMin inModelErr).crashed = true ∧
    run cfgStd datetimeMin [inModelErr, inGood]
      = [runCycle cfgStd datetimeMin inModelErr] := by decide

/-- Claim C4, amended. Capture, heartbeat, and notification failures are all
caught locally and never terminate the loop (any cycle whose model invocation
returns normally finishes, as does any cycle whose capture failed), but an
exception from the detection-model invocation propagates out of
`process_image` uncaught and terminates the monitor loop. -/
theorem c4_amended_error_containment (cfg : Config) (st : ℤ) (i : CycleInput) :
    (∀ boxes : List Box, i.model = Except.ok boxes →
      (runCycle cfg st i).crashed = false) ∧
    (i.rawCapture = none → (runCycle cfg st i).crashed = false) ∧
    (∀ img : Frame, capture_image cfg i.rawCapture = some img →
      i.model = Except.error () →
      (runCycle cfg st i).crashed = true ∧
      ∀ rest : List CycleInput, run cfg st (i :: rest) = [runCycle cfg st i]) := by
  refine ⟨?_, ?_, ?_⟩
  · intro boxes hm
    cases hc : capture_image cfg i.rawCapture with
    | none => simp [runCycle, hc]
    | some img =>
      have hpr : process_image img i.model
          = Except.ok (boxes.foldl annotateBox img, boxes.any isPerson) := by
        simp [process_image, hm]
      by_cases hd : (boxes.any isPerson
          && decide (cfg.discordIntervalMinutes * 60 ≤ i.now - st)) = true
      · simp [runCycle, hc, hpr, hd]
      · simp [runCycle, hc, hpr, hd]
  · intro h
    have hc : capture_image cfg i.rawCapture = none := by simp [capture_image, h]
    simp [runCycle, hc]
  · intro img hc hm
    have hpr : process_image img i.model = Except.error () := by
      simp [process_image, hm]
    have hcr : (runCycle cfg st i).crashed = true := by simp [runCycle, hc, hpr]
    exact ⟨hcr, fun rest => by simp [run, hcr]⟩

/-- Witness for the amended claim C4 at concrete cycles. -/
theorem c4_amended_witness :
    (runCycle cfgStd datetimeMin inGood).crashed = false ∧
    (runCycle cfgStd datetimeMin inFail).crashed = false ∧
    (runCycle cfgStd datetimeMin inModelErr).crashed = true ∧
    run cfgStd datetimeMin [inModelErr] = [runCycle cfgStd datetimeMin inModelErr] :=
  ⟨(c4_amended_error_containment cfgStd datetimeMin inGood).1 [personBox] rfl,
   (c4_amended_error_containment cfgStd datetimeMin inFail).2.1 rfl,
   ((c4_amended_error_containment cfgStd datetimeMin inModelErr).2.2 frame4
      (by decide) rfl).1,
   ((c4_amended_error_containment cfgStd datetimeMin inModelErr).2.2 frame4
      (by decide) rfl).2 []⟩

/-- Claim C5, counterexample. The detection step mutates the input frame:
`process_image` draws the rectangle and label onto the very buffer it was
given (and returns that same buffer), so after a cycle with a person
detection the frame's pixel contents differ from what was captured. -/
theorem c5_counterexample_detect_mutates :
    (process_image frame4 (Except.ok [personBox])).toOption
      = some (annotatedFrame4, true) ∧
    annotatedFrame4 ≠ frame4 := by decide

/-- Annotation helper: a fold over boxes none of which is a person leaves
the frame untouched. -/
theorem foldl_annotateBox_no_person (f : Frame) (boxes : List Box)
    (h : ∀ b ∈ boxes, b.cls ≠ 0) : List.foldl annotateBox f boxes = f := by
  induction boxes generalizing f with
  | nil => rfl
  | cons b bs ih =>
    have hb : b.cls ≠ 0 := h b (List.mem_cons_self b bs)
    simp only [List.foldl_cons, annotateBox, if_neg hb]
    exact ih f (fun x hx => h x (List.mem_cons_of_mem b hx))

/-- Element access through `List.mapIdx`, stated for `getD` at an in-bounds
index (the defaults are irrelevant there). -/
theorem getD_mapIdx {α β : Type} (l : List α) (F : ℕ → α → β) (i : ℕ)
    (d : α) (d2 : β) (h : i < l.length) :
    (l.mapIdx F).getD i d2 = F i (l.getD i d) := by
  have h2 : i < (l.mapIdx F).length := by
    rw [List.length_mapIdx]
    exact h
  rw [List.getD_eq_getElem _ _ h2, List.getD_eq_getElem _ _ h]
  exact List.getElem_mapIdx

/-- `drawRect` preserves the number of rows. -/
theorem drawRect_height (f : Frame) (a b c d : ℤ) :
    (drawRect f a b c d).data.length = f.data.length :=
  List.length_mapIdx

/-- `drawRect` preserves the length of every row. -/
theorem drawRect_rowLen (f : Frame) (a b c d : ℤ) (y : ℕ)
    (hy : y < f.data.length) :
    ((drawRect f a b c d).data.getD y []).length = (f.data.getD y []).length := by
  show ((f.data.mapIdx _).getD y []).length = _
  rw [getD_mapIdx f.data _ y [] [] hy, List.length_mapIdx]

/-- `drawLabel` preserves the number of rows. -/
theorem drawLabel_height (f : Frame) (a b : ℤ) :
    (drawLabel f a b).data.length = f.data.length :=
  List.length_mapIdx

/-- `drawLabel` preserves the length of every row. -/
theorem drawLabel_rowLen (f : Frame) (a b : ℤ) (y : ℕ)
    (hy : y < f.data.length) :
    ((drawLabel f a b).data.getD y []).length = (f.data.getD y []).length := by
  show ((f.data.mapIdx _).getD y []).length = _
  rw [getD_mapIdx f.data _ y [] [] hy, List.length_mapIdx]

/-- Pointwise effect of `drawRect` at an in-grid position. -/
theorem pixelAt_drawRect (f : Frame) (a b c d : ℤ) (x y : ℕ)
    (hy : y < f.data.length) (hx : x < (f.data.getD y []).length) :
    pixelAt (drawRect f a b c d) x y
      = if onRectBorder a b c d (Int.ofNat x) (Int.ofNat y) then overlayColor
        else pixelAt f x y := by
  show ((f.data.mapIdx _).getD y []).getD x pxZero = _
  rw [getD_mapIdx f.data _ y [] [] hy,
    getD_mapIdx (f.data.getD y []) _ x pxZero pxZero hx]
  rfl

/-- Pointwise effect of `drawLabel` at an in-grid position. -/
theorem pixelAt_drawLabel (f : Frame) (a b : ℤ) (x y : ℕ)
    (hy : y < f.data.length) (hx : x < (f.data.getD y []).length) :
    pixelAt (drawLabel f a b) x y
      = if Int.ofNat x = a && Int.ofNat y = b then overlayColor
        else pixelAt f x y := by
  show ((f.data.mapIdx _).getD y []).getD x pxZero = _
  rw [getD_mapIdx f.data _ y [] [] hy,
    getD_mapIdx (f.data.getD y []) _ x pxZero pxZero hx]
  rfl

/-- `annotateBox` preserves the number of rows. -/
theorem annotateBox_height (f : Frame) (b : Box) :
    (annotateBox f b).data.length = f.data.length := by
  unfold annotateBox
  by_cases hb : b.cls = 0
  · rw [if_pos hb, drawLabel_height, drawRect_height]
  · rw [if_neg hb]

/-- `annotateBox` preserves the length of every row. -/
theorem annotateBox_rowLen (f : Frame) (b : Box) (y : ℕ)
    (hy : y < f.data.length) :
    ((annotateBox f b).data.getD y []).length = (f.data.getD y []).length := by
  unfold annotateBox
  by_cases hb : b.cls = 0
  · have h1 : y < (drawRect f b.x1 b.y1 b.x2 b.y2).data.length := by
      rw [drawRect_height]
      exact hy
    rw [if_pos hb, drawLabel_rowLen _ _ _ y h1, drawRect_rowLen f _ _ _ _ y hy]
  · rw [if_neg hb]

/-- Pointwise effect of `annotateBox` at an in-grid position: the pixel
becomes the overlay color exactly when the box's overlay covers it, and is
untouched otherwise. -/
theorem pixelAt_annotateBox (f : Frame) (b : Box) (x y : ℕ)
    (hy : y < f.data.length) (hx : x < (f.data.getD y []).length) :
    pixelAt (annotateBox f b) x y
      = if overlayCovers b x y then overlayColor else pixelAt f x y := by
  by_cases hb : b.cls = 0
  · have h1 : y < (drawRect f b.x1 b.y1 b.x2 b.y2).data.length := by
      rw [drawRect_height]
      exact hy
    have h2 : x < ((drawRect f b.x1 b.y1 b.x2 b.y2).data.getD y []).length := by
      rw [drawRect_rowLen f b.x1 b.y1 b.x2 b.y2 y hy]
      exact hx
    rw [annotateBox, if_pos hb, pixelAt_drawLabel _ _ _ x y h1 h2,
      pixelAt_drawRect f _ _ _ _ x y hy hx]
    have hp : isPerson b = true := by simp [isPerson, hb]
    rw [overlayCovers, hp, Bool.true_and]
    cases hA : (Int.ofNat x = b.x1 && Int.ofNat y = b.y1 - 10 : Bool) <;>
      cases hB : onRectBorder b.x1 b.y1 b.x2 b.y2 (Int.ofNat x) (Int.ofNat y) <;>
      simp [hA, hB]
  · have hp : isPerson b = false := by simp [isPerson, hb]
    rw [annotateBox, if_neg hb, overlayCovers, hp, Bool.false_and]
    simp

/-- Pointwise effect of the whole annotation fold of `process_image` at an
in-grid position: the pixel becomes the overlay color exactly when some
box's overlay covers it. -/
theorem pixelAt_foldl_annotateBox (boxes : List Box) (f : Frame) (x y : ℕ)
    (hy : y < f.data.length) (hx : x < (f.data.getD y []).length) :
    pixelAt (List.foldl annotateBox f boxes) x y
      = if boxes.any (fun b => overlayCovers b x y) then overlayColor
        else pixelAt f x y := by
  induction boxes generalizing f with
  | nil => simp
  | cons b bs ih =>
    have hy2 : y < (annotateBox f b).data.length := by
      rw [annotateBox_height]
      exact hy
    have hx2 : x < ((annotateBox f b).data.getD y []).length := by
      rw [annotateBox_rowLen f b y hy]
      exact hx
    rw [List.foldl_cons, ih (annotateBox f b) hy2 hx2,
      pixelAt_annotateBox f b x y hy hx, List.any_cons]
    cases hcov : overlayCovers b x y <;>
      cases hrest : bs.any (fun bb => overlayCovers bb x y) <;>
      simp [hcov, hrest]

/-- Claim C5, amended. `process_image` draws the person overlays in place on
the buffer it was given: the frame is returned unchanged (with
`person_found = false`) whenever no person-class detection is present, and
the buffer contents are changed whenever some person detection's rectangle
border or label anchor covers an in-grid pixel that does not already hold
the overlay color — an overlay lying fully outside the grid is clipped and
changes nothing, so a person detection alone does not force a change. -/
theorem c5_amended_overlay_mutation (f : Frame) (boxes : List Box) :
    ((∀ b ∈ boxes, b.cls ≠ 0) →
      process_image f (Except.ok boxes) = Except.ok (f, false)) ∧
    (∀ x y : ℕ, y < f.data.length → x < (f.data.getD y []).length →
      boxes.any (fun b => overlayCovers b x y) = true →
      pixelAt f x y ≠ overlayColor →
      ∀ (g : Frame) (fd : Bool),
        process_image f (Except.ok boxes) = Except.ok (g, fd) → g ≠ f) := by
  constructor
  · intro h
    have hany : boxes.any isPerson = false := by
      rw [List.any_eq_false]
      intro b hb
      simp [isPerson]
      exact h b hb
    simp only [process_image, foldl_annotateBox_no_person f boxes h, hany]
  · intro x y hy hx hcov hpx g fd hpr heq
    have hfold : List.foldl annotateBox f boxes = g := by
      simp only [process_image, Except.ok.injEq, Prod.mk.injEq] at hpr
      exact hpr.1
    have hpix := pixelAt_foldl_annotateBox boxes f x y hy hx
    rw [hcov] at hpix
    simp only [if_true] at hpix
    have hgf : List.foldl annotateBox f boxes = f := hfold.trans heq
    rw [hgf] at hpix
    exact hpx hpix

/-- Witness for the amended claim C5: a concrete non-person detection leaves
the frame unchanged, and the concrete person detection of the
counterexample, whose rectangle border covers the in-grid black pixel
(0, 1), forces the returned buffer to differ from the input. -/
theorem c5_amended_witness :
    process_image frame4 (Except.ok [dogBox]) = Except.ok (frame4, false) ∧
    annotatedFrame4 ≠ frame4 :=
  ⟨(c5_amended_overlay_mutation frame4 [dogBox]).1 (by decide),
   (c5_amended_overlay_mutation frame4 [personBox]).2 0 1 (by decide) (by decide)
     (by decide) (by decide) annotatedFrame4 true rfl⟩

/-- Claim C6. The raw frame is persisted if and only if the capture
succeeded: what `save_image` writes is exactly the outcome of
`capture_image` (in every branch, including the one whose model invocation
crashes — the save precedes detection), and on a failed capture the whole
cycle is independent of the detection model and send channel, so neither
persistence nor detection nor annotation can occur then. -/
theorem c6_persist_iff_capture (cfg : Config) (st : ℤ) (i : CycleInput) :
    (runCycle cfg st i).saved = capture_image cfg i.rawCapture ∧
    (i.rawCapture = none → ∀ (m : Except Unit (List Box)) (e s : Bool),
      runCycle cfg st { i with model := m, encodeOk := e, sendOk := s }
        = runCycle cfg st i) := by
  constructor
  · cases hc : capture_image cfg i.rawCapture with
    | none => simp [runCycle, hc]
    | some img =>
      cases hm : process_image img i.model with
      | error e => simp [runCycle, hc, hm]
      | ok pr =>
        obtain ⟨processed, found⟩ := pr
        by_cases hd : (found
            && decide (cfg.discordIntervalMinutes * 60 ≤ i.now - st)) = true
        · simp [runCycle, hc, hm, hd]
        · simp [runCycle, hc, hm, hd]
  · intro h m e s
    have hc : capture_image cfg i.rawCapture = none := by simp [capture_image, h]
    have hc2 : capture_image cfg
        ({ i with model := m, encodeOk := e, sendOk := s } : CycleInput).rawCapture
        = none := by
      simp [capture_image, h]
    simp [runCycle, hc, hc2]

/-- Witness for claim C6 at a concrete failed-capture cycle. -/
theorem c6_witness :
    (runCycle cfgStd datetimeMin inFail).saved
        = capture_image cfgStd inFail.rawCapture ∧
    runCycle cfgStd datetimeMin
        { inFail with model := Except.error (), encodeOk := false, sendOk := false }
      = runCycle cfgStd datetimeMin inFail :=
  ⟨(c6_persist_iff_capture cfgStd datetimeMin inFail).1,
   (c6_persist_iff_capture cfgStd datetimeMin inFail).2 rfl (Except.error ()) false false⟩

/-- A successful `send_discord_image` posts exactly the frame it was given. -/
theorem send_discord_image_eq_some (cfg : Config) (f g : Frame) (e s : Bool)
    (h : send_discord_image cfg f e s = some g) : g = f := by
  unfold send_discord_image at h
  split at h
  · exact absurd h (by simp)
  · split at h
    · exact absurd h (by simp)
    · split at h
      · exact (Option.some_inj.mp h).symm
      · exact absurd h (by simp)

/-- Claim C7. On a successful cycle the frame persisted to disk is the
unannotated captured frame (`save_image` runs before any overlay is drawn on
the shared buffer), and whatever frame is successfully posted to Discord is
the captured frame with the rectangle-and-label overlay fold applied for
every person detection. -/
theorem c7_saved_raw_sent_annotated (cfg : Config) (st : ℤ) (i : CycleInput)
    (raw : Frame) (boxes : List Box)
    (hc : i.rawCapture = some raw) (hm : i.model = Except.ok boxes) :
    (runCycle cfg st i).saved = some (applyRotation cfg.cameraRotation raw) ∧
    ∀ g : Frame, (runCycle cfg st i).sent = some g →
      g = List.foldl annotateBox (applyRotation cfg.cameraRotation raw) boxes := by
  have hcap : capture_image cfg i.rawCapture
      = some (applyRotation cfg.cameraRotation raw) := by
    simp [capture_image, hc]
  have hpr : process_image (applyRotation cfg.cameraRotation raw) i.model
      = Except.ok
          (boxes.foldl annotateBox (applyRotation cfg.cameraRotation raw),
            boxes.any isPerson) := by
    simp [process_image, hm]
  by_cases hd : (boxes.any isPerson
      && decide (cfg.discordIntervalMinutes * 60 ≤ i.now - st)) = true
  · constructor
    · simp [runCycle, hcap, hpr, hd]
    · intro g hg
      simp only [runCycle, hcap, hpr, hd, if_true] at hg
      exact send_discord_image_eq_some cfg _ g i.encodeOk i.sendOk hg
  · constructor
    · simp [runCycle, hcap, hpr, hd]
    · intro g hg
      simp [runCycle, hcap, hpr, hd] at hg

/-- Witness for claim C7 at a concrete successful person-detection cycle. -/
theorem c7_witness :
    (runCycle cfgStd datetimeMin inGood).saved
        = some (applyRotation cfgStd.cameraRotation frame4) ∧
    annotatedFrame4
        = List.foldl annotateBox (applyRotation cfgStd.cameraRotation frame4)
            [personBox] :=
  ⟨(c7_saved_raw_sent_annotated cfgStd datetimeMin inGood frame4 [personBox]
      rfl rfl).1,
   (c7_saved_raw_sent_annotated cfgStd datetimeMin inGood frame4 [personBox]
      rfl rfl).2 annotatedFrame4 (by decide)⟩

/-- Claim C8. The configured rotation is applied for 90, 180 and 270
degrees; every other configured value (0 included) leaves the decoded frame
unchanged; and for a decoded frame of positive width the 90-degree rotation
swaps width and height. -/
theorem c8_rotation_behavior (rot : ℤ) (f : Frame) (hw : 0 < f.width) :
    (rot ≠ 90 → rot ≠ 180 → rot ≠ 270 → applyRotation rot f = f) ∧
    applyRotation 90 f = rotate90CW f ∧
    applyRotation 180 f = rotate180 f ∧
    applyRotation 270 f = rotate90CCW f ∧
    (applyRotation 90 f).height = f.width ∧
    (applyRotation 90 f).width = f.height := by
  have h90 : applyRotation 90 f = rotate90CW f := by simp [applyRotation]
  refine ⟨?_, h90, by simp [applyRotation], by simp [applyRotation], ?_, ?_⟩
  · intro ha hb hc
    simp [applyRotation, ha, hb, hc]
  · rw [h90]
    simp [rotate90CW, Frame.height]
  · rw [h90]
    obtain ⟨k, hk⟩ : ∃ k, f.width = k + 1 :=
      ⟨f.width - 1, (Nat.succ_pred_eq_of_pos hw).symm⟩
    show ((rotate90CW f).data.headD []).length = f.height
    simp only [rotate90CW, hk, List.range_succ_eq_map, List.map_cons]
    simp [Frame.height]

/-- Witness for claim C8 at a concrete 2-by-3 frame and rotation 45. -/
theorem c8_witness :
    applyRotation 45 frame23 = frame23 ∧
    (applyRotation 90 frame23).height = frame23.width ∧
    (applyRotation 90 frame23).width = frame23.height :=
  ⟨(c8_rotation_behavior 45 frame23 (by decide)).1 (by decide) (by decide) (by decide),
   (c8_rotation_behavior 45 frame23 (by decide)).2.2.2.2.1,
   (c8_rotation_behavior 45 frame23 (by decide)).2.2.2.2.2⟩

/-- Claim C9. The loop's observable behaviour — every saved frame, sent
frame, heartbeat, crash flag and throttle state on every cycle — is
identical for any two runs differing only in the configured
FAILURE_THRESHOLD: monitor.py never reads it (it is not even imported). -/
theorem c9_threshold_independence (cfg : Config) (t1 t2 st : ℤ)
    (inps : List CycleInput) :
    run { cfg with failureThreshold := t1 } st inps
      = run { cfg with failureThreshold := t2 } st inps := by
  induction inps generalizing st with
  | nil => rfl
  | cons i rest ih =>
    have hcyc : runCycle { cfg with failureThreshold := t1 } st i
        = runCycle { cfg with failureThreshold := t2 } st i := rfl
    simp only [run, hcyc, ih]

/-- Claim C10. The timestamp recorded into `last_discord_send` on a cycle
that sends is the `now` sampled at the very top of the loop body — before
capture, persistence and inference — and every `last_discord_send` value the
throttle ever compares against is either the initial value or the cycle-start
`now` of an earlier cycle. -/
theorem c10_record_cycle_start_time (cfg : Config) (st : ℤ) (i : CycleInput)
    (inps : List CycleInput) :
    ((runCycle cfg st i).sent.isSome = true →
      (runCycle cfg st i).state = i.now ∧ (runCycle cfg st i).startedAt = i.now) ∧
    (∀ r ∈ run cfg st inps, r.state = st ∨ r.state ∈ inps.map CycleInput.now) := by
  constructor
  · intro h
    exact ⟨(runCycle_sent_isSome cfg st i h).1, runCycle_startedAt cfg st i⟩
  · intro r hr
    exact run_state_mem cfg inps st r hr

/-- Witness for claim C10 at a concrete sending cycle. -/
theorem c10_witness :
    ((runCycle cfgStd datetimeMin inGood).state = inGood.now ∧
      (runCycle cfgStd datetimeMin inGood).startedAt = inGood.now) ∧
    ((runCycle cfgStd datetimeMin inGood).state = datetimeMin ∨
      (runCycle cfgStd datetimeMin inGood).state ∈ [inGood].map CycleInput.now) :=
  ⟨(c10_record_cycle_start_time cfgStd datetimeMin inGood [inGood]).1 (by decide),
   (c10_record_cycle_start_time cfgStd datetimeMin inGood [inGood]).2
     (runCycle cfgStd datetimeMin inGood) (by decide)⟩

end GardenYolo
